import Mathlib

/-!
Verification development for the sgf-render SVG rendering core
(`src/lib/make_svg.rs`).  The data model and the rendering pipeline are
shallowly embedded: the unordered Rust collections (`HashMap`/`HashSet`)
are represented by lists whose order stands for the arbitrary iteration
order of the underlying container, fallible code returns `Option`/`Except`,
`f64` arithmetic on exactly-representable constants is carried out in `ℚ`,
and the svg crate's builder calls (`set`/`add`) become explicit
list-appending operations on an element tree.
-/

set_option maxHeartbeats 1000000

namespace SgfRender

/-- Stone color on the goban (`StoneColor` in the source). -/
inductive StoneColor where
  | Black
  | White
deriving DecidableEq, Repr

/-- A board point: 0-based (column, row) coordinates, `(u8, u8)` in the source. -/
abbrev Point := ℕ × ℕ

/-- A rendering-ready stone: a point plus a color (`Stone` in the source). -/
structure Stone where
  x : ℕ
  y : ℕ
  color : StoneColor
deriving DecidableEq, Repr

/-- Visual style variants (`GobanStyle` in the source). -/
inductive GobanStyle where
  | Fancy
  | Minimalist
  | Simple
deriving DecidableEq, Repr

/-- Which node of the parsed game tree to render (`NodeDescription` in the source). -/
inductive NodeDescription where
  | Number (n : ℕ)
  | Path (steps : List ℕ)
deriving DecidableEq, Repr

/-- Errors surfaced by the rendering core (`GobanSVGError` in the source). -/
inductive GobanSVGError where
  | ParseError (message : String)
  | InsufficientSgfNodes
  | InvalidRange
  | UnlabellableRange
deriving DecidableEq, Repr

/-- A half-open integer interval, modelling Rust `Range` (the `end` field is
renamed `stop` because `end` is a Lean keyword). -/
structure Rng where
  start : ℕ
  stop : ℕ
deriving DecidableEq, Repr

/-- The logical board state consumed read-only by the renderer (the `Goban`
collaborator).  Every collection is a list whose order models the arbitrary
iteration order of the underlying unordered map or set; `hoshiPoints` models
the `hoshi_points()` accessor. -/
structure Goban where
  size : ℕ × ℕ
  stones : List (Point × StoneColor)
  move_numbers : List (Point × List ℕ)
  marks : List Point
  triangles : List Point
  circles : List Point
  squares : List Point
  selected : List Point
  dimmed : List Point
  labels : List (Point × String)
  lines : List (Point × Point)
  arrows : List (Point × Point)
  hoshiPoints : List Point
deriving DecidableEq, Repr

/-- Models `goban.stones.get(point)` over the association-list view of the
stone map. -/
def Goban.stoneAt (g : Goban) (p : Point) : Option StoneColor :=
  (g.stones.find? (fun e => e.1 == p)).map (·.2)

/-- Requested viewing range (`GobanRange` in the source). -/
inductive GobanRange where
  | FullBoard
  | ShrinkWrap
  | Ranged (xr : Rng) (yr : Rng)
deriving DecidableEq, Repr

/-- Modelled from the spec: the set of occupied points (stones together with
every markup category) consulted by auto-crop; the Range Resolver's
implementation is not under src/. -/
def Goban.occupied (g : Goban) : List Point :=
  g.stones.map (·.1) ++ g.move_numbers.map (·.1) ++ g.marks ++ g.triangles
    ++ g.circles ++ g.squares ++ g.selected ++ g.dimmed ++ g.labels.map (·.1)
    ++ g.lines.map (·.1) ++ g.lines.map (·.2)
    ++ g.arrows.map (·.1) ++ g.arrows.map (·.2)

/-- Modelled from the spec: the Range Resolver (`GobanRange::get_ranges`,
source not under src/).  Full board yields the whole box; an explicit range
is validated against board bounds and fails with an out-of-range error
otherwise; auto-crop takes the bounding box of the occupied points expanded
by one and clamped to the board, falling back to the full board when nothing
is occupied. -/
def GobanRange.getRanges : GobanRange → Goban → Except GobanSVGError (Rng × Rng)
  | .FullBoard, g => .ok (⟨0, g.size.1⟩, ⟨0, g.size.2⟩)
  | .ShrinkWrap, g =>
      match g.occupied with
      | [] => .ok (⟨0, g.size.1⟩, ⟨0, g.size.2⟩)
      | p :: ps =>
          let x0 := ((p :: ps).map (·.1)).foldl min p.1
          let x1 := ((p :: ps).map (·.1)).foldl max p.1
          let y0 := ((p :: ps).map (·.2)).foldl min p.2
          let y1 := ((p :: ps).map (·.2)).foldl max p.2
          .ok (⟨x0 - 1, min (x1 + 2) g.size.1⟩, ⟨y0 - 1, min (y1 + 2) g.size.2⟩)
  | .Ranged xr yr, g =>
      if xr.start ≤ xr.stop ∧ yr.start ≤ yr.stop ∧ xr.stop ≤ g.size.1 ∧
          yr.stop ≤ g.size.2 then
        .ok (xr, yr)
      else
        .error .InvalidRange

/-- Rendering configuration (`MakeSvgOptions` in the source). -/
structure MakeSvgOptions where
  node_description : NodeDescription
  goban_range : GobanRange
  style : GobanStyle
  viewbox_width : ℚ
  draw_board_labels : Bool
  draw_move_numbers : Bool
  draw_marks : Bool
  draw_triangles : Bool
  draw_circles : Bool
  draw_squares : Bool
  draw_selected : Bool
  draw_dimmed : Bool
  draw_labels : Bool
  draw_lines : Bool
  draw_arrows : Bool
  first_move_number : ℕ
deriving DecidableEq, Repr

/-- Models the source `Default` implementation for `MakeSvgOptions`. -/
def MakeSvgOptions.default : MakeSvgOptions where
  node_description := .Number 0
  goban_range := .FullBoard
  viewbox_width := 800
  draw_board_labels := true
  draw_move_numbers := false
  draw_marks := true
  draw_triangles := true
  draw_circles := true
  draw_squares := true
  draw_selected := true
  draw_dimmed := true
  draw_labels := true
  draw_lines := true
  draw_arrows := true
  first_move_number := 1
  style := .Simple

/-- Modelled from the spec: a parsed game-record collection, exposing for
each node description the board state accumulated at that node (the
game-tree parser and `Goban::from_node_in_collection` are not under src/). -/
abbrev Collection := NodeDescription → Option Goban

/-- Modelled from the spec: the game-record input text is abstracted by its
parse outcome; the external sgf parsing crate is out of this core's scope. -/
abbrev SgfInput := Except String Collection

/-- Modelled from the spec: `sgf_parse::go::parse`, surfacing malformed
input as a parse error. -/
def parseGo (s : SgfInput) : Except GobanSVGError Collection :=
  match s with
  | .ok c => .ok c
  | .error e => .error (.ParseError e)

/-- Modelled from the spec: `Goban::from_node_in_collection`; a missing node
is a propagated node-not-found error. -/
def Goban.fromNodeInCollection (d : NodeDescription) (c : Collection) :
    Except GobanSVGError Goban :=
  match c d with
  | some g => .ok g
  | none => .error .InsufficientSgfNodes

/-! ## The element tree -/

/-- Attribute values: strings, exact numbers, and structured transform
values (the svg crate serializes these to text; that serialization is
external to this core and injective on the values we emit). -/
inductive Val where
  | s (v : String)
  | q (v : ℚ)
  | translate (x y : ℚ)
  | scale (x y : ℚ)
deriving DecidableEq, Repr

/-- A vector-document node: an element with a tag, its attributes in the
order the source sets them, and its children in the order the source adds
them — or raw text content. -/
inductive Elem where
  | node (tag : String) (attrs : List (String × Val)) (children : List Elem)
  | text (content : String)
deriving Repr

mutual

def Elem.decEq : (a b : Elem) → Decidable (a = b)
  | .node t1 a1 c1, .node t2 a2 c2 =>
      if h1 : t1 = t2 then
        if h2 : a1 = a2 then
          match Elem.decEqList c1 c2 with
          | .isTrue h3 => .isTrue (by rw [h1, h2, h3])
          | .isFalse h3 => .isFalse (by intro h; injection h; contradiction)
        else .isFalse (by intro h; injection h; contradiction)
      else .isFalse (by intro h; injection h; contradiction)
  | .text s1, .text s2 =>
      if h : s1 = s2 then .isTrue (by rw [h])
      else .isFalse (by intro hh; injection hh; contradiction)
  | .node t1 a1 c1, .text s2 => .isFalse (by intro h; exact Elem.noConfusion h)
  | .text s1, .node t2 a2 c2 => .isFalse (by intro h; exact Elem.noConfusion h)

def Elem.decEqList : (l1 l2 : List Elem) → Decidable (l1 = l2)
  | [], [] => .isTrue rfl
  | [], _ :: _ => .isFalse (by simp)
  | _ :: _, [] => .isFalse (by simp)
  | x :: xs, y :: ys =>
      match Elem.decEq x y, Elem.decEqList xs ys with
      | .isTrue h1, .isTrue h2 => .isTrue (by rw [h1, h2])
      | .isFalse h1, _ => .isFalse (by intro h; injection h; contradiction)
      | .isTrue _, .isFalse h2 => .isFalse (by intro h; injection h; contradiction)

end

instance : DecidableEq Elem := Elem.decEq

/-- Models the svg builder call `.set(name, value)`. -/
def Elem.set (e : Elem) (a : String × Val) : Elem :=
  match e with
  | .node t attrs cs => .node t (attrs ++ [a]) cs
  | .text c => .text c

/-- Models the svg builder call `.add(child)`. -/
def Elem.addChild (e : Elem) (c : Elem) : Elem :=
  match e with
  | .node t attrs cs => .node t attrs (cs ++ [c])
  | .text s => .text s

/-- Children of an element (empty for text nodes). -/
def Elem.childrenOf : Elem → List Elem
  | .node _ _ cs => cs
  | .text _ => []

/-- The value of the `id` attribute when it is the first attribute set, as
it is for every layer group the source builds. -/
def Elem.elemId : Elem → String
  | .node _ (("id", Val.s i) :: _) _ => i
  | _ => ""

/-! ## Style provider (spec-modelled)

The `GobanStyle` implementation lives in a repository file that is not
under src/; the accessors below are modelled from the spec: they are pure
functions of the style variant (and, for markup, of the underlying stone
color, chosen to contrast with it). -/

/-- Name of a style variant. -/
def GobanStyle.styleName : GobanStyle → String
  | .Fancy => "fancy"
  | .Minimalist => "minimalist"
  | .Simple => "simple"

/-- Modelled from the spec: the style's line end-cap marker. -/
def GobanStyle.linehead (s : GobanStyle) : Elem :=
  Elem.node "marker" [("kind", Val.s "linehead"), ("variant", Val.s s.styleName)] []

/-- Modelled from the spec: the style's arrow end-cap marker. -/
def GobanStyle.arrowhead (s : GobanStyle) : Elem :=
  Elem.node "marker" [("kind", Val.s "arrowhead"), ("variant", Val.s s.styleName)] []

/-- Modelled from the spec: style-specific reusable definitions (the Fancy
variant's stone gradients). -/
def GobanStyle.defs : GobanStyle → List Elem
  | .Fancy =>
      [Elem.node "radialGradient" [("id", Val.s "black-stone-fill")] [],
        Elem.node "radialGradient" [("id", Val.s "white-stone-fill")] []]
  | .Minimalist => []
  | .Simple => []

/-- Modelled from the spec: the style's background fill color. -/
def GobanStyle.background_fill : GobanStyle → String
  | .Fancy => "#cfa87e"
  | .Minimalist => "white"
  | .Simple => "#cfa87e"

/-- Modelled from the spec: markup color, contrast-adjusted against the
stone under the markup (neutral when the point is empty). -/
def GobanStyle.markup_color : GobanStyle → Option StoneColor → String
  | _, some .Black => "white"
  | _, some .White => "black"
  | _, none => "black"

/-- Modelled from the spec: the selection tint. -/
def GobanStyle.selected_color : GobanStyle → Option StoneColor → String
  | _, some .Black => "deepskyblue"
  | _, some .White => "blue"
  | _, none => "blue"

/-- Modelled from the spec: the edge-label color. -/
def GobanStyle.label_color : GobanStyle → String
  | .Fancy => "black"
  | .Minimalist => "black"
  | .Simple => "black"

/-! ## Constants (statics at the top of `make_svg.rs`) -/

def BOARD_MARGIN : ℚ := 0.64
def LABEL_MARGIN : ℚ := 0.8
def FONT_FAMILY : String := "Roboto"
def FONT_SIZE : ℚ := 0.5
def FONT_WEIGHT : ℕ := 700
def LINE_COLOR : String := "black"
def LINE_WIDTH : ℚ := 0.03
def MARKUP_WIDTH : ℚ := 0.1
def HOSHI_RADIUS : ℚ := 0.09

/-! ## Sorting infrastructure

Rust's `Vec::sort`/`sort_by_key` is a stable ascending sort; it is modelled
by Mathlib's `List.insertionSort`, which is likewise stable for a total
transitive relation. -/

/-- Models `nums.iter().max()`. -/
def itermax : List ℕ → Option ℕ
  | [] => none
  | a :: l =>
      match itermax l with
      | none => some a
      | some b => some (max a b)

/-- The `Ord` instance on `Option<u64>`: `None` sorts below every `Some`. -/
def optle : Option ℕ → Option ℕ → Prop
  | none, _ => True
  | some _, none => False
  | some a, some b => a ≤ b

instance (a b : Option ℕ) : Decidable (optle a b) :=
  match a, b with
  | none, _ => .isTrue trivial
  | some _, none => .isFalse (fun h => h)
  | some x, some y => inferInstanceAs (Decidable (x ≤ y))

/-- The derived `Ord` on points: lexicographic (column, then row). -/
def PointLe (p q : Point) : Prop := p.1 < q.1 ∨ (p.1 = q.1 ∧ p.2 ≤ q.2)

/-- Strict lexicographic order on points. -/
def PointLt (p q : Point) : Prop := p.1 < q.1 ∨ (p.1 = q.1 ∧ p.2 < q.2)

/-- The derived `Ord` on point pairs (lines and arrows). -/
def PairLe (a b : Point × Point) : Prop :=
  PointLt a.1 b.1 ∨ (a.1 = b.1 ∧ PointLe a.2 b.2)

/-- The derived `Ord` on label entries: by point, then by label text. -/
def LabelLe (a b : Point × String) : Prop :=
  PointLt a.1 b.1 ∨ (a.1 = b.1 ∧ a.2 ≤ b.2)

/-- The `sort_by_key` comparison for move-number entries: by the maximum
recorded number. -/
def MNLe (a b : Point × List ℕ) : Prop := optle (itermax a.2) (itermax b.2)

instance : DecidableRel PointLe := fun p q =>
  inferInstanceAs (Decidable (p.1 < q.1 ∨ (p.1 = q.1 ∧ p.2 ≤ q.2)))

instance : DecidableRel PointLt := fun p q =>
  inferInstanceAs (Decidable (p.1 < q.1 ∨ (p.1 = q.1 ∧ p.2 < q.2)))

instance : DecidableRel PairLe := fun a b =>
  inferInstanceAs (Decidable (PointLt a.1 b.1 ∨ (a.1 = b.1 ∧ PointLe a.2 b.2)))

instance : DecidableRel LabelLe := fun a b =>
  inferInstanceAs (Decidable (PointLt a.1 b.1 ∨ (a.1 = b.1 ∧ a.2 ≤ b.2)))

instance : DecidableRel MNLe := fun a b =>
  inferInstanceAs (Decidable (optle (itermax a.2) (itermax b.2)))

instance : IsTotal Point PointLe := by
  constructor
  intro a b
  unfold PointLe
  omega

instance : IsTrans Point PointLe := by
  constructor
  intro a b c
  unfold PointLe
  omega

theorem pointLe_antisymm {a b : Point} (h1 : PointLe a b) (h2 : PointLe b a) :
    a = b := by
  unfold PointLe at h1 h2
  have hx : a.1 = b.1 ∧ a.2 = b.2 := by omega
  exact Prod.ext hx.1 hx.2

theorem optle_total (a b : Option ℕ) : optle a b ∨ optle b a := by
  cases a <;> cases b <;> simp [optle] <;> omega

theorem optle_trans {a b c : Option ℕ} (h1 : optle a b) (h2 : optle b c) :
    optle a c := by
  cases a <;> cases b <;> cases c <;> simp_all [optle] <;> omega

theorem optle_antisymm {a b : Option ℕ} (h1 : optle a b) (h2 : optle b a) :
    a = b := by
  cases a <;> cases b <;> simp_all [optle] <;> omega

instance : IsTotal (Point × List ℕ) MNLe := ⟨fun a b => optle_total _ _⟩

instance : IsTrans (Point × List ℕ) MNLe :=
  ⟨fun _ _ _ h1 h2 => optle_trans h1 h2⟩

theorem pointLt_trichotomy (a b : Point) : PointLt a b ∨ a = b ∨ PointLt b a := by
  unfold PointLt
  rcases Nat.lt_trichotomy a.1 b.1 with h | h | h
  · exact Or.inl (Or.inl h)
  · rcases Nat.lt_trichotomy a.2 b.2 with h2 | h2 | h2
    · exact Or.inl (Or.inr ⟨h, h2⟩)
    · exact Or.inr (Or.inl (Prod.ext h h2))
    · exact Or.inr (Or.inr (Or.inr ⟨h.symm, h2⟩))
  · exact Or.inr (Or.inr (Or.inl h))

instance : IsTotal (Point × Point) PairLe := by
  constructor
  intro a b
  unfold PairLe
  rcases pointLt_trichotomy a.1 b.1 with h | h | h
  · exact Or.inl (Or.inl h)
  · rcases total_of PointLe a.2 b.2 with h2 | h2
    · exact Or.inl (Or.inr ⟨h, h2⟩)
    · exact Or.inr (Or.inr ⟨h.symm, h2⟩)
  · exact Or.inr (Or.inl h)

theorem pointLt_trans {a b c : Point} (h1 : PointLt a b) (h2 : PointLt b c) :
    PointLt a c := by
  unfold PointLt at h1 h2 ⊢
  omega

theorem pointLt_asymm {a b : Point} (h1 : PointLt a b) (h2 : PointLt b a) :
    False := by
  unfold PointLt at h1 h2
  omega

theorem pointLe_trans {a b c : Point} (h1 : PointLe a b) (h2 : PointLe b c) :
    PointLe a c := by
  unfold PointLe at h1 h2 ⊢
  omega

instance : IsTrans (Point × Point) PairLe := by
  constructor
  intro a b c h1 h2
  unfold PairLe at h1 h2 ⊢
  rcases h1 with h1 | ⟨h1e, h1r⟩ <;> rcases h2 with h2 | ⟨h2e, h2r⟩
  · exact Or.inl (pointLt_trans h1 h2)
  · exact Or.inl (h2e ▸ h1)
  · exact Or.inl (h1e ▸ h2)
  · exact Or.inr ⟨h1e.trans h2e, pointLe_trans h1r h2r⟩

theorem pairLe_antisymm {a b : Point × Point} (h1 : PairLe a b)
    (h2 : PairLe b a) : a = b := by
  unfold PairLe at h1 h2
  rcases h1 with h1 | ⟨h1e, h1r⟩ <;> rcases h2 with h2 | ⟨h2e, h2r⟩
  · exact absurd h2 (fun hh => pointLt_asymm h1 hh)
  · exact absurd (h2e ▸ h1) (fun hh => pointLt_asymm hh hh)
  · exact absurd (h1e ▸ h2) (fun hh => pointLt_asymm hh hh)
  · exact Prod.ext h1e (pointLe_antisymm h1r h2r)

instance : IsTotal (Point × String) LabelLe := by
  constructor
  intro a b
  unfold LabelLe
  rcases pointLt_trichotomy a.1 b.1 with h | h | h
  · exact Or.inl (Or.inl h)
  · rcases le_total a.2 b.2 with h2 | h2
    · exact Or.inl (Or.inr ⟨h, h2⟩)
    · exact Or.inr (Or.inr ⟨h.symm, h2⟩)
  · exact Or.inr (Or.inl h)

instance : IsTrans (Point × String) LabelLe := by
  constructor
  intro a b c h1 h2
  unfold LabelLe at h1 h2 ⊢
  rcases h1 with h1 | ⟨h1, h1s⟩ <;> rcases h2 with h2 | ⟨h2, h2s⟩
  · unfold PointLt at h1 h2 ⊢
    omega
  · exact Or.inl (h2 ▸ h1)
  · exact Or.inl (h1 ▸ h2)
  · exact Or.inr ⟨h1.trans h2, h1s.trans h2s⟩

theorem labelLe_antisymm {a b : Point × String} (h1 : LabelLe a b)
    (h2 : LabelLe b a) : a = b := by
  unfold LabelLe at h1 h2
  rcases h1 with h1 | ⟨h1, h1s⟩ <;> rcases h2 with h2 | ⟨h2, h2s⟩
  · unfold PointLt at h1 h2
    omega
  · rw [h2] at h1
    unfold PointLt at h1
    omega
  · rw [h1] at h2
    unfold PointLt at h2
    omega
  · exact Prod.ext h1 (le_antisymm h1s h2s)

/-- Two sorted lists that are permutations of each other are equal, as long
as the sorting relation is antisymmetric on the elements actually present.
This local form (unlike `List.eq_of_perm_of_sorted`) does not require
global antisymmetry, which the move-number key comparison lacks. -/
theorem sorted_perm_unique {α : Type} {r : α → α → Prop} :
    ∀ {l1 l2 : List α}, l1.Perm l2 → l1.Sorted r → l2.Sorted r →
      (∀ a ∈ l1, ∀ b ∈ l1, r a b → r b a → a = b) → l1 = l2 := by
  intro l1
  induction l1 with
  | nil =>
      intro l2 hp _ _ _
      exact hp.nil_eq
  | cons a t ih =>
      intro l2 hp hs1 hs2 hanti
      cases l2 with
      | nil => exact absurd hp.symm.nil_eq (by simp)
      | cons b t2 =>
          have hbmem : b ∈ a :: t := hp.mem_iff.mpr (List.mem_cons_self b t2)
          have hamem : a ∈ b :: t2 := hp.mem_iff.mp (List.mem_cons_self a t)
          have hab : a = b := by
            rcases List.mem_cons.mp hbmem with h | h
            · exact h.symm
            · have rab : r a b := (List.sorted_cons.mp hs1).1 b h
              rcases List.mem_cons.mp hamem with h2 | h2
              · exact h2
              · have rba : r b a := (List.sorted_cons.mp hs2).1 a h2
                exact hanti a (List.mem_cons_self a t) b hbmem rab rba
          subst hab
          have hpt : t.Perm t2 := hp.cons_inv
          have ht : t = t2 :=
            ih hpt (List.sorted_cons.mp hs1).2 (List.sorted_cons.mp hs2).2
              (fun x hx y hy => hanti x (List.mem_cons_of_mem a hx) y
                (List.mem_cons_of_mem a hy))
          rw [ht]

/-- Stable sorting of two permuted lists gives the same result when the
relation is antisymmetric on the elements present. -/
theorem insertionSort_perm_congr {α : Type} (r : α → α → Prop)
    [DecidableRel r] [IsTotal α r] [IsTrans α r] {l1 l2 : List α}
    (hp : l1.Perm l2)
    (hanti : ∀ a ∈ l1, ∀ b ∈ l1, r a b → r b a → a = b) :
    List.insertionSort r l1 = List.insertionSort r l2 := by
  refine sorted_perm_unique
    ((List.perm_insertionSort r l1).trans
      (hp.trans (List.perm_insertionSort r l2).symm))
    (List.sorted_insertionSort r l1) (List.sorted_insertionSort r l2) ?_
  intro a ha b hb
  exact hanti a ((List.perm_insertionSort r l1).mem_iff.mp ha)
    b ((List.perm_insertionSort r l1).mem_iff.mp hb)

/-! ## Drawing primitives (`draw_*` functions in the source) -/

/-- Translation of `draw_stone`. -/
def drawStone (stone : Stone) (style : GobanStyle) : Elem :=
  match style with
  | .Fancy =>
      let shadow := Elem.node "circle"
        [("cx", Val.q ((stone.x : ℚ) + 0.025)), ("cy", Val.q ((stone.y : ℚ) + 0.025)),
          ("r", Val.q 0.475), ("fill", Val.s "black"), ("fill-opacity", Val.q 0.5)] []
      let fill :=
        match stone.color with
        | .Black => "url(#black-stone-fill)"
        | .White => "url(#white-stone-fill)"
      let stone_element := Elem.node "circle"
        [("cx", Val.q ((stone.x : ℚ) - 0.017)), ("cy", Val.q ((stone.y : ℚ) - 0.017)),
          ("r", Val.q 0.475), ("fill", Val.s fill)] []
      Elem.node "g" [] [shadow, stone_element]
  | .Minimalist | .Simple =>
      let fill :=
        match stone.color with
        | .Black => "black"
        | .White => "white"
      Elem.node "g" []
        [Elem.node "circle"
          [("cx", Val.q (stone.x : ℚ)), ("cy", Val.q (stone.y : ℚ)),
            ("r", Val.q 0.48), ("stroke", Val.s "black"),
            ("stroke-width", Val.q LINE_WIDTH), ("fill", Val.s fill)] []]

/-- Translation of `draw_move_number`. -/
def drawMoveNumber (x y n : ℕ) (color : Option StoneColor) (style : GobanStyle) :
    Elem :=
  let text_element := Elem.node "text"
    [("x", Val.q (x : ℚ)), ("y", Val.q (y : ℚ)), ("dy", Val.s "0.35em"),
      ("fill", Val.s (style.markup_color color))]
    [Elem.text (toString n)]
  let base : List Elem :=
    if color.isNone then
      [Elem.node "rect"
        [("fill", Val.s style.background_fill), ("x", Val.q ((x : ℚ) - 0.4)),
          ("y", Val.q ((y : ℚ) - 0.4)), ("width", Val.q 0.8),
          ("height", Val.q 0.8)] []]
    else []
  Elem.node "g" [] (base ++ [text_element])

/-- Translation of `draw_mark`. -/
def drawMark (x y : ℕ) (color : Option StoneColor) (style : GobanStyle) : Elem :=
  Elem.node "g"
    [("stroke", Val.s (style.markup_color color)), ("stroke-width", Val.q MARKUP_WIDTH)]
    [Elem.node "line"
      [("x1", Val.q ((x : ℚ) - 0.25)), ("x2", Val.q ((x : ℚ) + 0.25)),
        ("y1", Val.q ((y : ℚ) - 0.25)), ("y2", Val.q ((y : ℚ) + 0.25))] [],
      Elem.node "line"
        [("x1", Val.q ((x : ℚ) - 0.25)), ("x2", Val.q ((x : ℚ) + 0.25)),
          ("y1", Val.q ((y : ℚ) + 0.25)), ("y2", Val.q ((y : ℚ) - 0.25))] []]

/-- Translation of `draw_triangle`; the polygon corner list is kept as the
structured list of its six coordinates. -/
def drawTriangle (x y : ℕ) (color : Option StoneColor) (style : GobanStyle) :
    Elem :=
  let triangle_radius : ℚ := 0.45
  Elem.node "g"
    [("stroke", Val.s (style.markup_color color)), ("fill", Val.s "none"),
      ("stroke-width", Val.q LINE_WIDTH)]
    [Elem.node "polygon"
      [("p1x", Val.q (x : ℚ)), ("p1y", Val.q ((y : ℚ) - triangle_radius)),
        ("p2x", Val.q ((x : ℚ) - 0.866 * triangle_radius)),
        ("p2y", Val.q ((y : ℚ) + 0.5 * triangle_radius)),
        ("p3x", Val.q ((x : ℚ) + 0.866 * triangle_radius)),
        ("p3y", Val.q ((y : ℚ) + 0.5 * triangle_radius))] []]

/-- Translation of `draw_circle`. -/
def drawCircle (x y : ℕ) (color : Option StoneColor) (style : GobanStyle) : Elem :=
  let radius : ℚ := 0.25
  Elem.node "g"
    [("stroke", Val.s (style.markup_color color)), ("fill", Val.s "none"),
      ("stroke-width", Val.q LINE_WIDTH)]
    [Elem.node "circle"
      [("cx", Val.q (x : ℚ)), ("cy", Val.q (y : ℚ)), ("r", Val.q radius)] []]

/-- Translation of `draw_square`. -/
def drawSquare (x y : ℕ) (color : Option StoneColor) (style : GobanStyle) : Elem :=
  let width : ℚ := 0.55
  Elem.node "g"
    [("stroke", Val.s (style.markup_color color)), ("fill", Val.s "none"),
      ("stroke-width", Val.q LINE_WIDTH)]
    [Elem.node "rect"
      [("x", Val.q ((x : ℚ) - 0.5 * width)), ("y", Val.q ((y : ℚ) - 0.5 * width)),
        ("width", Val.q width), ("height", Val.q width)] []]

/-- Translation of `draw_selected`. -/
def drawSelected (x y : ℕ) (color : Option StoneColor) (style : GobanStyle) :
    Elem :=
  let width : ℚ := 0.25
  Elem.node "g"
    [("stroke", Val.s "none"), ("fill", Val.s (style.selected_color color)),
      ("stroke-width", Val.q LINE_WIDTH)]
    [Elem.node "rect"
      [("x", Val.q ((x : ℚ) - 0.5 * width)), ("y", Val.q ((y : ℚ) - 0.5 * width)),
        ("width", Val.q width), ("height", Val.q width)] []]

/-- Translation of `dim_square`. -/
def dimSquare (x y : ℕ) : Elem :=
  let width : ℚ := 1
  Elem.node "g"
    [("stroke", Val.s "none"), ("fill", Val.s "black"), ("fill-opacity", Val.q 0.5),
      ("shape-rendering", Val.s "crispEdges")]
    [Elem.node "rect"
      [("x", Val.q ((x : ℚ) - 0.5 * width)), ("y", Val.q ((y : ℚ) - 0.5 * width)),
        ("width", Val.q width), ("height", Val.q width)] []]

/-- Translation of `draw_label`: the label text is truncated to at most two
characters. -/
def drawLabel (x y : ℕ) (t : String) (color : Option StoneColor)
    (style : GobanStyle) : Elem :=
  let text_element := Elem.node "text"
    [("x", Val.q (x : ℚ)), ("y", Val.q (y : ℚ)), ("text-anchor", Val.s "middle"),
      ("dy", Val.s "0.35em"), ("fill", Val.s (style.markup_color color))]
    [Elem.text (t.take 2)]
  let base : List Elem :=
    if color.isNone then
      [Elem.node "rect"
        [("fill", Val.s style.background_fill), ("x", Val.q ((x : ℚ) - 0.4)),
          ("y", Val.q ((y : ℚ) - 0.4)), ("width", Val.q 0.8),
          ("height", Val.q 0.8)] []]
    else []
  Elem.node "g" [] (base ++ [text_element])

/-- Translation of `label_text`: letters with the ambiguous `I` skipped. -/
def labelText (x : ℕ) : String :=
  if x + 65 < 73 then String.singleton (Char.ofNat (x + 65))
  else String.singleton (Char.ofNat (x + 66))

/-! ## Layer builders (`build_*` functions in the source) -/

/-- Translation of `build_board_lines_group`: one vertical line per column
of the whole board, one horizontal line per row of the whole board, then
the star-point group.  Neither the lines nor the stars depend on the
resolved viewing range. -/
def buildBoardLinesGroup (goban : Goban) (_options : MakeSvgOptions) : Elem :=
  Elem.node "g"
    [("id", Val.s "lines"), ("stroke", Val.s LINE_COLOR),
      ("stroke-width", Val.q LINE_WIDTH), ("stroke-linecap", Val.s "square")]
    ((List.range goban.size.1).map (fun (x : ℕ) =>
        Elem.node "line"
          [("x1", Val.q (x : ℚ)), ("y1", Val.q 0), ("x2", Val.q (x : ℚ)),
            ("y2", Val.q ((goban.size.2 - 1 : ℕ) : ℚ))] [])
      ++ (List.range goban.size.2).map (fun (y : ℕ) =>
        Elem.node "line"
          [("x1", Val.q 0), ("y1", Val.q (y : ℚ)),
            ("x2", Val.q ((goban.size.1 - 1 : ℕ) : ℚ)), ("y2", Val.q (y : ℚ))] [])
      ++ [Elem.node "g"
            [("id", Val.s "hoshi"), ("stroke", Val.s "none"),
              ("fill", Val.s LINE_COLOR)]
            (goban.hoshiPoints.map (fun p =>
              Elem.node "circle"
                [("cx", Val.q (p.1 : ℚ)), ("cy", Val.q (p.2 : ℚ)),
                  ("r", Val.q HOSHI_RADIUS)] []))])

/-- Translation of `build_stones_group`; the stone map is iterated in its
own (unordered) order, without sorting. -/
def buildStonesGroup (goban : Goban) (options : MakeSvgOptions) : Elem :=
  Elem.node "g" [("id", Val.s "stones"), ("stroke", Val.s "none")]
    (goban.stones.map (fun e => drawStone ⟨e.1.1, e.1.2, e.2⟩ options.style))

/-- The per-entry body of the `build_move_numbers_group` loop: selects the
entry's `last()` recorded number, suppresses it when it is below
`first_move_number`, and otherwise draws it wrapped into `[1, 99]`. -/
def mnEmitEntry (goban : Goban) (options : MakeSvgOptions)
    (e : Point × List ℕ) : Option Elem :=
  match e.2.getLast? with
  | none => none
  | some n =>
      if options.first_move_number ≤ n then
        some (drawMoveNumber e.1.1 e.1.2 ((n - options.first_move_number) % 99 + 1)
          (goban.stoneAt e.1) options.style)
      else none

/-- Translation of `build_move_numbers_group`.  The entries are stably
sorted by their maximum recorded number; the `expect` on an empty recorded
list is modelled by returning `none` (the panic) whenever any entry's list
is empty. -/
def buildMoveNumbersGroup? (goban : Goban) (options : MakeSvgOptions) :
    Option Elem :=
  let sortedEntries := List.insertionSort MNLe goban.move_numbers
  if sortedEntries.all (fun e => !e.2.isEmpty) then
    some (Elem.node "g"
      [("id", Val.s "move-numbers"), ("text-anchor", Val.s "middle")]
      (sortedEntries.filterMap (mnEmitEntry goban options)))
  else none

/-- Translation of `build_marks_group`: marks are sorted by point before
drawing. -/
def buildMarksGroup (goban : Goban) (options : MakeSvgOptions) : Elem :=
  Elem.node "g" [("id", Val.s "markup-marks")]
    ((List.insertionSort PointLe goban.marks).map (fun p =>
      drawMark p.1 p.2 (goban.stoneAt p) options.style))

/-- Translation of `build_triangles_group`. -/
def buildTrianglesGroup (goban : Goban) (options : MakeSvgOptions) : Elem :=
  Elem.node "g" [("id", Val.s "markup-triangles")]
    ((List.insertionSort PointLe goban.triangles).map (fun p =>
      drawTriangle p.1 p.2 (goban.stoneAt p) options.style))

/-- Translation of `build_circles_group`. -/
def buildCirclesGroup (goban : Goban) (options : MakeSvgOptions) : Elem :=
  Elem.node "g" [("id", Val.s "markup-circles")]
    ((List.insertionSort PointLe goban.circles).map (fun p =>
      drawCircle p.1 p.2 (goban.stoneAt p) options.style))

/-- Translation of `build_squares_group`. -/
def buildSquaresGroup (goban : Goban) (options : MakeSvgOptions) : Elem :=
  Elem.node "g" [("id", Val.s "markup-squares")]
    ((List.insertionSort PointLe goban.squares).map (fun p =>
      drawSquare p.1 p.2 (goban.stoneAt p) options.style))

/-- Translation of `build_selected_group`. -/
def buildSelectedGroup (goban : Goban) (options : MakeSvgOptions) : Elem :=
  Elem.node "g" [("id", Val.s "markup-selected")]
    ((List.insertionSort PointLe goban.selected).map (fun p =>
      drawSelected p.1 p.2 (goban.stoneAt p) options.style))

/-- Translation of `build_dimmed_group`. -/
def buildDimmedGroup (goban : Goban) (_options : MakeSvgOptions) : Elem :=
  Elem.node "g" [("id", Val.s "markup-dimmed")]
    ((List.insertionSort PointLe goban.dimmed).map (fun p => dimSquare p.1 p.2))

/-- Translation of `build_label_group`. -/
def buildLabelGroup (goban : Goban) (options : MakeSvgOptions) : Elem :=
  Elem.node "g" [("id", Val.s "markup-labels")]
    ((List.insertionSort LabelLe goban.labels).map (fun e =>
      drawLabel e.1.1 e.1.2 e.2 (goban.stoneAt e.1) options.style))

/-- Translation of `build_line_group`. -/
def buildLineGroup (goban : Goban) (_options : MakeSvgOptions) : Elem :=
  Elem.node "g"
    [("id", Val.s "markup-lines"), ("stroke", Val.s "black"),
      ("stroke-width", Val.q LINE_WIDTH), ("marker-start", Val.s "url(#linehead)"),
      ("marker-end", Val.s "url(#linehead)")]
    ((List.insertionSort PairLe goban.lines).map (fun e =>
      Elem.node "line"
        [("x1", Val.q (e.1.1 : ℚ)), ("x2", Val.q (e.2.1 : ℚ)),
          ("y1", Val.q (e.1.2 : ℚ)), ("y2", Val.q (e.2.2 : ℚ))] []))

/-- Translation of `build_arrow_group`. -/
def buildArrowGroup (goban : Goban) (_options : MakeSvgOptions) : Elem :=
  Elem.node "g"
    [("id", Val.s "markup-arrows"), ("stroke", Val.s "black"),
      ("stroke-width", Val.q LINE_WIDTH), ("marker-end", Val.s "url(#arrowhead)")]
    ((List.insertionSort PairLe goban.arrows).map (fun e =>
      Elem.node "line"
        [("x1", Val.q (e.1.1 : ℚ)), ("x2", Val.q (e.2.1 : ℚ)),
          ("y1", Val.q (e.1.2 : ℚ)), ("y2", Val.q (e.2.2 : ℚ))] []))

/-- Translation of `build_board`: the layer groups are stacked in the fixed
source order, each optional layer appended only when its flag is set; the
result is `none` exactly when the move-number layer is built and panics. -/
def buildBoard? (goban : Goban) (options : MakeSvgOptions) : Option Elem :=
  let mnLayer : Option (List Elem) :=
    if options.draw_move_numbers then
      match buildMoveNumbersGroup? goban options with
      | none => none
      | some e => some [e]
    else some []
  match mnLayer with
  | none => none
  | some mn =>
      some (Elem.node "g" [("id", Val.s "goban")]
        ([buildBoardLinesGroup goban options, buildStonesGroup goban options]
          ++ mn
          ++ (if options.draw_marks then [buildMarksGroup goban options] else [])
          ++ (if options.draw_triangles then [buildTrianglesGroup goban options] else [])
          ++ (if options.draw_circles then [buildCirclesGroup goban options] else [])
          ++ (if options.draw_squares then [buildSquaresGroup goban options] else [])
          ++ (if options.draw_selected then [buildSelectedGroup goban options] else [])
          ++ (if options.draw_dimmed then [buildDimmedGroup goban options] else [])
          ++ (if options.draw_labels then [buildLabelGroup goban options] else [])
          ++ (if options.draw_lines then [buildLineGroup goban options] else [])
          ++ (if options.draw_arrows then [buildArrowGroup goban options] else [])))

/-- Translation of `draw_board_labels`: letter labels along the bottom for
the columns of `x_range`, numeric labels up the side for the values of
`y_range`, the whole group shifted by `LABEL_MARGIN`. -/
def drawBoardLabels (x_range y_range : Rng) (style : GobanStyle) : Elem :=
  let row_labels := Elem.node "g" [("text-anchor", Val.s "middle")]
    ((List.range' x_range.start (x_range.stop - x_range.start)).map (fun x =>
      Elem.node "text"
        [("x", Val.q (((x - x_range.start : ℕ) : ℚ) + BOARD_MARGIN)),
          ("y", Val.q 0)]
        [Elem.text (labelText x)]))
  let column_labels := Elem.node "g" [("text-anchor", Val.s "end")]
    ((List.range' y_range.start (y_range.stop - y_range.start)).map (fun y =>
      Elem.node "text"
        [("x", Val.q 0),
          ("y", Val.q (((y_range.stop - y - 1 : ℕ) : ℚ) + BOARD_MARGIN)),
          ("dy", Val.s "0.35em")]
        [Elem.text (toString y)]))
  Elem.node "g"
    [("id", Val.s "board-labels"), ("fill", Val.s style.label_color),
      ("transform", Val.translate LABEL_MARGIN LABEL_MARGIN)]
    [row_labels, column_labels]

/-! ## The document composer (`make_svg`) -/

/-- The abstract board width of `make_svg`:
`columns - 1 + 2 * BOARD_MARGIN + label_margin`. -/
def boardWidthOf (width : ℕ) (label_margin : ℚ) : ℚ :=
  (width : ℚ) - 1 + 2 * BOARD_MARGIN + label_margin

/-- The complete rendered document: the svg root's attributes plus its
three children (definitions, background, diagram) in order. -/
structure Doc where
  viewbox : ℚ × ℚ × ℚ × ℚ
  width : ℚ
  fontSize : ℚ
  fontFamily : String
  fontWeight : ℕ
  defs : Elem
  background : Elem
  diagram : Elem
deriving DecidableEq, Repr

/-- The document-composition tail of `make_svg`: everything after the range
resolution, the label-bounds check and the board-group construction have
succeeded.  `board0` is the group returned by `build_board`. -/
def composeDoc (goban : Goban) (options : MakeSvgOptions) (x_range y_range : Rng)
    (board0 : Elem) : Doc :=
  let width := x_range.stop - x_range.start
  let height := y_range.stop - y_range.start
  let label_margin : ℚ := if options.draw_board_labels then LABEL_MARGIN else 0
  let definitions :=
    Elem.node "defs" []
      ([Elem.node "clipPath" [("id", Val.s "board-clip")]
          [Elem.node "rect"
            [("x", Val.q ((x_range.start : ℚ) - 0.5)),
              ("y", Val.q ((y_range.start : ℚ) - 0.5)),
              ("width", Val.q (width : ℚ)), ("height", Val.q (height : ℚ))] []],
        options.style.linehead.set ("id", Val.s "linehead"),
        options.style.arrowhead.set ("id", Val.s "arrowhead")]
        ++ options.style.defs)
  let board_width := boardWidthOf width label_margin
  let board_height := boardWidthOf height label_margin
  let board := board0.set ("clip-path", Val.s "url(#board-clip)")
  let offset := BOARD_MARGIN + label_margin
  let board_view := (Elem.node "g" [("id", Val.s "board-view")] [board]).set
    ("transform", Val.translate (offset - (x_range.start : ℚ))
      (offset - (y_range.start : ℚ)))
  let scale := options.viewbox_width / board_width
  let diagram0 := (Elem.node "g" [("id", Val.s "diagram")] [board_view]).set
    ("transform", Val.scale scale scale)
  let diagram :=
    if options.draw_board_labels then
      diagram0.addChild (drawBoardLabels x_range
        ⟨goban.size.2 - height - y_range.start + 1,
          goban.size.2 - y_range.start + 1⟩ options.style)
    else diagram0
  let background := Elem.node "rect"
    [("x", Val.q 0), ("y", Val.q 0), ("width", Val.s "100%"),
      ("height", Val.s "100%"), ("fill", Val.s options.style.background_fill)] []
  let viewbox_height := options.viewbox_width * board_height / board_width
  { viewbox := (0, 0, options.viewbox_width, viewbox_height)
    width := options.viewbox_width
    fontSize := FONT_SIZE
    fontFamily := FONT_FAMILY
    fontWeight := FONT_WEIGHT
    defs := definitions
    background := background
    diagram := diagram }

/-- Translation of `make_svg`.  The outer `Option` models panic-freedom
(`none` is the `expect` panic inside the move-number layer); the `Except`
carries the function's `Result`. -/
def makeSvg (sgf : SgfInput) (options : MakeSvgOptions) :
    Option (Except GobanSVGError Doc) :=
  match parseGo sgf with
  | .error e => some (.error e)
  | .ok collection =>
  match Goban.fromNodeInCollection options.node_description collection with
  | .error e => some (.error e)
  | .ok goban =>
  match options.goban_range.getRanges goban with
  | .error e => some (.error e)
  | .ok (x_range, y_range) =>
  if options.draw_board_labels ∧
      (25 < x_range.stop - x_range.start ∨ 99 < y_range.stop - y_range.start) then
    some (.error .UnlabellableRange)
  else
    match buildBoard? goban options with
    | none => none
    | some board0 => some (.ok (composeDoc goban options x_range y_range board0))

/-! ## Spec-side definitions

These definitions follow the wording of the spec rather than the source;
each is compared against the corresponding source-derived definition in a
refinement theorem. -/

/-- Follows the spec's words: the fixed back-to-front draw order of the
board layers, restricted to the enabled ones — grid lines & star points,
stones, move numbers, marks, triangles, circles, squares, selection
highlight, dimming, text labels, connector lines, arrows. -/
def specLayerOrder (o : MakeSvgOptions) : List String :=
  ["lines", "stones"]
    ++ (if o.draw_move_numbers then ["move-numbers"] else [])
    ++ (if o.draw_marks then ["markup-marks"] else [])
    ++ (if o.draw_triangles then ["markup-triangles"] else [])
    ++ (if o.draw_circles then ["markup-circles"] else [])
    ++ (if o.draw_squares then ["markup-squares"] else [])
    ++ (if o.draw_selected then ["markup-selected"] else [])
    ++ (if o.draw_dimmed then ["markup-dimmed"] else [])
    ++ (if o.draw_labels then ["markup-labels"] else [])
    ++ (if o.draw_lines then ["markup-lines"] else [])
    ++ (if o.draw_arrows then ["markup-arrows"] else [])

/-- Follows the spec's words: the move-number layer that shows, per point,
the maximum recorded move number (instead of the source's `last()`),
with the same suppression threshold, wraparound and ordering. -/
def specMoveNumbersGroupByMax (goban : Goban) (options : MakeSvgOptions) : Elem :=
  Elem.node "g" [("id", Val.s "move-numbers"), ("text-anchor", Val.s "middle")]
    ((List.insertionSort MNLe goban.move_numbers).filterMap (fun e =>
      match itermax e.2 with
      | none => none
      | some n =>
          if options.first_move_number ≤ n then
            some (drawMoveNumber e.1.1 e.1.2
              ((n - options.first_move_number) % 99 + 1) (goban.stoneAt e.1)
              options.style)
          else none))

/-- Follows the spec's words: the label alphabet, `A` through `Z` with the
digit-lookalike `I` skipped (25 usable letters). -/
def skipIAlphabet : List Char :=
  ['A', 'B', 'C', 'D', 'E', 'F', 'G', 'H', 'J', 'K', 'L', 'M', 'N', 'O',
    'P', 'Q', 'R', 'S', 'T', 'U', 'V', 'W', 'X', 'Y', 'Z']

/-- Extracts the string of a text element with a single text child. -/
def textOf : Elem → Option String
  | .node _ _ [.text s] => some s
  | _ => none

/-- The letter labels (bottom edge) of a `drawBoardLabels` group. -/
def columnLabelTexts (e : Elem) : List String :=
  match e with
  | .node _ _ [rl, _] => rl.childrenOf.filterMap textOf
  | _ => []

/-- The numeric labels (side edge) of a `drawBoardLabels` group. -/
def rowLabelTexts (e : Elem) : List String :=
  match e with
  | .node _ _ [_, cl] => cl.childrenOf.filterMap textOf
  | _ => []

/-! ## Concrete inputs used by witnesses and counterexamples -/

/-- A collection in which every node description resolves to `g`. -/
def collectionFor (g : Goban) : Collection := fun _ => some g

/-- A well-formed input whose parse yields `collectionFor g`. -/
def okInput (g : Goban) : SgfInput := .ok (collectionFor g)

/-- An empty 19×19 board state. -/
def emptyGoban : Goban where
  size := (19, 19)
  stones := []
  move_numbers := []
  marks := []
  triangles := []
  circles := []
  squares := []
  selected := []
  dimmed := []
  labels := []
  lines := []
  arrows := []
  hoshiPoints := []

/-- A board with a stone, a mark and a selection on the same point. -/
def gExample : Goban := { emptyGoban with
  stones := [((3, 3), StoneColor.Black)]
  marks := [(3, 3)]
  selected := [(3, 3)] }

/-- Default options with the move-number layer enabled. -/
def mnOptions : MakeSvgOptions :=
  { MakeSvgOptions.default with draw_move_numbers := true }

/-- A single point whose recorded history is the (unsorted) list `[2, 1]`. -/
def gReplayA : Goban := { emptyGoban with move_numbers := [((0, 0), [2, 1])] }

/-- The same board state with the point's history permuted to `[1, 2]`. -/
def gReplayB : Goban := { emptyGoban with move_numbers := [((0, 0), [1, 2])] }

/-- Two points whose recorded histories have the same maximum, iterated in
one order… -/
def gTieA : Goban :=
  { emptyGoban with move_numbers := [((0, 0), [5]), ((1, 1), [5, 4])] }

/-- …and in the other order. -/
def gTieB : Goban :=
  { emptyGoban with move_numbers := [((1, 1), [5, 4]), ((0, 0), [5])] }

/-- Two marked points iterated in one order… -/
def gMarksA : Goban := { emptyGoban with marks := [(1, 1), (2, 2)] }

/-- …and in the other order. -/
def gMarksB : Goban := { emptyGoban with marks := [(2, 2), (1, 1)] }

/-- The text content of the last child of an element — for a move-number
group entry, the displayed number. -/
def lastTextOf (e : Elem) : Option String :=
  e.childrenOf.getLast?.bind textOf

/-- The displayed number texts of a move-number layer, in draw order. -/
def mnNumbers : Option Elem → List String
  | some g => g.childrenOf.filterMap lastTextOf
  | none => []

/-- The displayed move-number texts of a whole successful render, in draw
order (board view → board group → third layer = move numbers). -/
def docMoveNumberTexts (r : Option (Except GobanSVGError Doc)) : List String :=
  match r with
  | some (.ok d) =>
      match d.diagram.childrenOf with
      | bv :: _ =>
          match bv.childrenOf with
          | [bd] =>
              match bd.childrenOf with
              | _ :: _ :: mn :: _ => mnNumbers (some mn)
              | _ => []
          | _ => []
      | [] => []
  | _ => []

/-- A single point replayed as move 100. -/
def gWrap : Goban := { emptyGoban with move_numbers := [((2, 3), [100])] }

/-- The board group built for `gExample` under default options. -/
def bExample : Elem :=
  (buildBoard? gExample MakeSvgOptions.default).getD (Elem.text "")

/-- The document composed for `gExample` under default options. -/
def dExample : Doc :=
  composeDoc gExample MakeSvgOptions.default ⟨0, 19⟩ ⟨0, 19⟩ bExample

/-! ## Helper lemmas -/

theorem itermax_eq_none_iff {l : List ℕ} : itermax l = none ↔ l = [] := by
  cases l with
  | nil => simp [itermax]
  | cons a t =>
      simp only [itermax]
      cases itermax t <;> simp

theorem itermax_mem : ∀ {l : List ℕ} {m : ℕ}, itermax l = some m → m ∈ l := by
  intro l
  induction l with
  | nil => intro m h; simp [itermax] at h
  | cons a t ih =>
      intro m h
      simp only [itermax] at h
      cases ht : itermax t with
      | none =>
          rw [ht] at h
          simp at h
          simp [h]
      | some b =>
          rw [ht] at h
          simp at h
          rcases max_choice a b with hm | hm <;> rw [hm] at h
          · simp [h]
          · exact List.mem_cons_of_mem a (h ▸ ih ht)

theorem itermax_cons_of_le {a : ℕ} {l : List ℕ} (hne : l ≠ [])
    (hle : ∀ x ∈ l, a ≤ x) : itermax (a :: l) = itermax l := by
  cases hl : itermax l with
  | none => exact absurd (itermax_eq_none_iff.mp hl) hne
  | some m =>
      simp only [itermax, hl]
      have : a ≤ m := hle m (itermax_mem hl)
      simp [Nat.max_eq_right this]

/-- On a non-empty ascending list, the source's `last()` selection agrees
with the spec's maximum selection. -/
theorem getLast?_eq_itermax : ∀ {l : List ℕ}, l ≠ [] → l.Sorted (· ≤ ·) →
    l.getLast? = itermax l := by
  intro l
  induction l with
  | nil => intro h; exact absurd rfl h
  | cons a t ih =>
      intro _ hs
      cases t with
      | nil => simp [itermax]
      | cons b t2 =>
          rw [List.getLast?_cons_cons]
          rw [itermax_cons_of_le (by simp) (List.sorted_cons.mp hs).1]
          exact ih (by simp) (List.sorted_cons.mp hs).2

theorem buildMoveNumbersGroup?_eq (g : Goban) (o : MakeSvgOptions)
    (h : ∀ e ∈ g.move_numbers, e.2 ≠ []) :
    buildMoveNumbersGroup? g o =
      some (Elem.node "g"
        [("id", Val.s "move-numbers"), ("text-anchor", Val.s "middle")]
        ((List.insertionSort MNLe g.move_numbers).filterMap (mnEmitEntry g o))) := by
  unfold buildMoveNumbersGroup?
  rw [if_pos]
  simp only [List.all_eq_true, List.mem_insertionSort]
  intro e he
  cases he2 : e.2 with
  | nil => exact absurd he2 (h e he)
  | cons a t => simp [he2]

theorem buildBoard?_eq (g : Goban) (o : MakeSvgOptions)
    (h : ∀ e ∈ g.move_numbers, e.2 ≠ []) :
    buildBoard? g o =
      some (Elem.node "g" [("id", Val.s "goban")]
        ([buildBoardLinesGroup g o, buildStonesGroup g o]
          ++ (if o.draw_move_numbers then
                [Elem.node "g"
                  [("id", Val.s "move-numbers"), ("text-anchor", Val.s "middle")]
                  ((List.insertionSort MNLe g.move_numbers).filterMap
                    (mnEmitEntry g o))]
              else [])
          ++ (if o.draw_marks then [buildMarksGroup g o] else [])
          ++ (if o.draw_triangles then [buildTrianglesGroup g o] else [])
          ++ (if o.draw_circles then [buildCirclesGroup g o] else [])
          ++ (if o.draw_squares then [buildSquaresGroup g o] else [])
          ++ (if o.draw_selected then [buildSelectedGroup g o] else [])
          ++ (if o.draw_dimmed then [buildDimmedGroup g o] else [])
          ++ (if o.draw_labels then [buildLabelGroup g o] else [])
          ++ (if o.draw_lines then [buildLineGroup g o] else [])
          ++ (if o.draw_arrows then [buildArrowGroup g o] else []))) := by
  unfold buildBoard?
  rw [buildMoveNumbersGroup?_eq g o h]
  cases hmn : o.draw_move_numbers <;> simp

theorem makeSvg_ok_eq {c : Collection} {g : Goban} {o : MakeSvgOptions}
    {xr yr : Rng} {b : Elem}
    (hc : c o.node_description = some g)
    (hr : o.goban_range.getRanges g = .ok (xr, yr))
    (hb : buildBoard? g o = some b)
    (hno : ¬(o.draw_board_labels = true ∧
      (25 < xr.stop - xr.start ∨ 99 < yr.stop - yr.start))) :
    makeSvg (.ok c) o = some (.ok (composeDoc g o xr yr b)) := by
  simp only [makeSvg, parseGo, Goban.fromNodeInCollection, hc, hr, hb]
  simp only [if_neg hno]

theorem makeSvg_unlabellable {c : Collection} {g : Goban} {o : MakeSvgOptions}
    {xr yr : Rng}
    (hc : c o.node_description = some g)
    (hr : o.goban_range.getRanges g = .ok (xr, yr))
    (hyes : o.draw_board_labels = true ∧
      (25 < xr.stop - xr.start ∨ 99 < yr.stop - yr.start)) :
    makeSvg (.ok c) o = some (.error .UnlabellableRange) := by
  simp only [makeSvg, parseGo, Goban.fromNodeInCollection, hc, hr]
  simp only [if_pos hyes]

/-- Distinct board points give distinct move-number elements: the drawn
element determines its coordinates. -/
theorem drawMoveNumber_point_inj {x y n x2 y2 n2 : ℕ}
    {c c2 : Option StoneColor} {s s2 : GobanStyle}
    (h : drawMoveNumber x y n c s = drawMoveNumber x2 y2 n2 c2 s2) :
    x = x2 ∧ y = y2 := by
  unfold drawMoveNumber at h
  injection h with ht ha hc
  have h2 := congrArg List.getLast? hc
  rw [List.getLast?_concat, List.getLast?_concat] at h2
  injection h2 with h3
  injection h3 with ht4 ha4 hc4
  simp only [List.cons.injEq, Prod.mk.injEq, Val.q.injEq] at ha4
  obtain ⟨⟨-, hx⟩, ⟨-, hy⟩, -⟩ := ha4
  exact ⟨Nat.cast_injective hx, Nat.cast_injective hy⟩

/-- Identical stone maps give identical stone lookups. -/
theorem stoneAt_congr {g1 g2 : Goban} (h : g1.stones = g2.stones) :
    Goban.stoneAt g1 = Goban.stoneAt g2 := by
  funext p
  unfold Goban.stoneAt
  rw [h]

theorem makeSvg_none {c : Collection} {g : Goban} {o : MakeSvgOptions}
    {xr yr : Rng}
    (hc : c o.node_description = some g)
    (hr : o.goban_range.getRanges g = .ok (xr, yr))
    (hno : ¬(o.draw_board_labels = true ∧
      (25 < xr.stop - xr.start ∨ 99 < yr.stop - yr.start)))
    (hb : buildBoard? g o = none) :
    makeSvg (.ok c) o = none := by
  simp only [makeSvg, parseGo, Goban.fromNodeInCollection, hc, hr, hb]
  simp only [if_neg hno]

theorem boardWidthOf_pos (w : ℕ) (lm : ℚ) (h : 0 ≤ lm) :
    0 < boardWidthOf w lm := by
  unfold boardWidthOf BOARD_MARGIN
  have hw : (0 : ℚ) ≤ (w : ℚ) := Nat.cast_nonneg w
  nlinarith

/-! ## Claim theorems -/

/-- C2: when board-edge labels are requested, `make_svg` fails with the
unlabelable-range error exactly when the resolved range is wider than 25
columns or taller than 99 rows; within the bounds (in particular at exactly
25×99) it succeeds, and when labels are not requested no bound is enforced
for any range. -/
theorem C2_label_bounds (c : Collection) (g : Goban) (o : MakeSvgOptions)
    (xr yr : Rng)
    (hc : c o.node_description = some g)
    (hr : o.goban_range.getRanges g = .ok (xr, yr))
    (hmn : ∀ e ∈ g.move_numbers, e.2 ≠ []) :
    (makeSvg (.ok c) o = some (.error .UnlabellableRange) ↔
      o.draw_board_labels = true ∧
        (25 < xr.stop - xr.start ∨ 99 < yr.stop - yr.start)) ∧
    (¬(o.draw_board_labels = true ∧
        (25 < xr.stop - xr.start ∨ 99 < yr.stop - yr.start)) →
      ∃ d, makeSvg (.ok c) o = some (.ok d)) := by
  obtain ⟨b, hb⟩ : ∃ b, buildBoard? g o = some b := ⟨_, buildBoard?_eq g o hmn⟩
  constructor
  · constructor
    · intro herr
      by_contra hno
      rw [makeSvg_ok_eq hc hr hb hno] at herr
      simp at herr
    · intro hyes
      exact makeSvg_unlabellable hc hr hyes
  · intro hno
    exact ⟨_, makeSvg_ok_eq hc hr hb hno⟩

/-- Witness for C2 at a concrete input: a full 19×19 board with labels
requested renders successfully. -/
theorem C2_label_bounds_witness :
    ∃ d, makeSvg (.ok (collectionFor gExample)) MakeSvgOptions.default =
      some (.ok d) :=
  (C2_label_bounds (collectionFor gExample) gExample MakeSvgOptions.default
      ⟨0, 19⟩ ⟨0, 19⟩ rfl rfl
      (by intro e he; simp [gExample, emptyGoban] at he)).2
    (by decide)

/-- C8: `make_svg` returns an error exactly when parsing, node selection or
range resolution (including the label-bounds check) fails, each error being
propagated unchanged with no document produced; once all three steps
succeed no later composing step can fail. -/
theorem C8_error_surface (o : MakeSvgOptions) :
    (∀ e : String, makeSvg (.error e) o = some (.error (.ParseError e))) ∧
    (∀ c : Collection, c o.node_description = none →
      makeSvg (.ok c) o = some (.error .InsufficientSgfNodes)) ∧
    (∀ (c : Collection) (g : Goban) (er : GobanSVGError),
      c o.node_description = some g →
      o.goban_range.getRanges g = .error er →
      makeSvg (.ok c) o = some (.error er)) ∧
    (∀ (c : Collection) (g : Goban) (xr yr : Rng),
      c o.node_description = some g →
      o.goban_range.getRanges g = .ok (xr, yr) →
      (∀ e ∈ g.move_numbers, e.2 ≠ []) →
      ¬(o.draw_board_labels = true ∧
        (25 < xr.stop - xr.start ∨ 99 < yr.stop - yr.start)) →
      ∃ d, makeSvg (.ok c) o = some (.ok d)) := by
  refine ⟨fun e => rfl, ?_, ?_, ?_⟩
  · intro c hc
    simp only [makeSvg, parseGo, Goban.fromNodeInCollection, hc]
  · intro c g er hc hr
    simp only [makeSvg, parseGo, Goban.fromNodeInCollection, hc, hr]
  · intro c g xr yr hc hr hmn hno
    exact ⟨_, makeSvg_ok_eq hc hr (buildBoard?_eq g o hmn) hno⟩

/-- Witness for C8: a parse failure is surfaced unchanged as the parse
error. -/
theorem C8_error_surface_witness :
    makeSvg (.error "unparseable") MakeSvgOptions.default =
      some (.error (.ParseError "unparseable")) :=
  (C8_error_surface MakeSvgOptions.default).1 "unparseable"

/-- C7: on success the abstract board width is
`columns - 1 + 2·0.64 + labelMargin` (labelMargin being 0.8 exactly when
edge labels are drawn and 0 otherwise), the viewBox height is
`viewbox_width · boardHeight / boardWidth`, and the canvas aspect ratio is
`boardWidth / boardHeight`. -/
theorem C7_geometry (c : Collection) (g : Goban) (o : MakeSvgOptions)
    (xr yr : Rng) (d : Doc) (lm : ℚ)
    (hc : c o.node_description = some g)
    (hr : o.goban_range.getRanges g = .ok (xr, yr))
    (hok : makeSvg (.ok c) o = some (.ok d))
    (hvw : 0 < o.viewbox_width)
    (hlm : lm = if o.draw_board_labels then LABEL_MARGIN else 0) :
    boardWidthOf (xr.stop - xr.start) lm =
      ((xr.stop - xr.start : ℕ) : ℚ) - 1 + 2 * 0.64 + lm ∧
    (o.draw_board_labels = true → lm = 0.8) ∧
    (o.draw_board_labels = false → lm = 0) ∧
    d.viewbox = (0, 0, o.viewbox_width,
      o.viewbox_width * boardWidthOf (yr.stop - yr.start) lm /
        boardWidthOf (xr.stop - xr.start) lm) ∧
    o.viewbox_width /
        (o.viewbox_width * boardWidthOf (yr.stop - yr.start) lm /
          boardWidthOf (xr.stop - xr.start) lm) =
      boardWidthOf (xr.stop - xr.start) lm /
        boardWidthOf (yr.stop - yr.start) lm := by
  subst hlm
  have hlm0 : (0 : ℚ) ≤ if o.draw_board_labels then LABEL_MARGIN else 0 := by
    cases o.draw_board_labels <;> simp [LABEL_MARGIN] <;> norm_num
  have hbw := boardWidthOf_pos (xr.stop - xr.start) _ hlm0
  have hbh := boardWidthOf_pos (yr.stop - yr.start) _ hlm0
  have hd : d = composeDoc g o xr yr
      ((buildBoard? g o).getD (Elem.text "")) := by
    by_cases hcond : o.draw_board_labels = true ∧
        (25 < xr.stop - xr.start ∨ 99 < yr.stop - yr.start)
    · rw [makeSvg_unlabellable hc hr hcond] at hok
      simp at hok
    · cases hbb : buildBoard? g o with
      | none =>
          rw [makeSvg_none hc hr hcond hbb] at hok
          simp at hok
      | some b =>
          rw [makeSvg_ok_eq hc hr hbb hcond] at hok
          simp at hok
          simp only [Option.getD_some]
          exact hok.symm
  refine ⟨by simp [boardWidthOf, BOARD_MARGIN], by intro h; simp [h, LABEL_MARGIN],
    by intro h; simp [h], ?_, ?_⟩
  · rw [hd]
    rfl
  · have hvw' : o.viewbox_width ≠ 0 := ne_of_gt hvw
    have hbw' : boardWidthOf (xr.stop - xr.start)
        (if o.draw_board_labels then LABEL_MARGIN else 0) ≠ 0 := ne_of_gt hbw
    have hbh' : boardWidthOf (yr.stop - yr.start)
        (if o.draw_board_labels then LABEL_MARGIN else 0) ≠ 0 := ne_of_gt hbh
    field_simp
    ring

/-- Witness for C7: a concrete composed document for the default options on
a full 19×19 board satisfies the width formula. -/
theorem C7_geometry_witness :
    boardWidthOf 19 LABEL_MARGIN = ((19 : ℕ) : ℚ) - 1 + 2 * 0.64 + LABEL_MARGIN :=
  (C7_geometry (collectionFor gExample) gExample MakeSvgOptions.default
      ⟨0, 19⟩ ⟨0, 19⟩ dExample LABEL_MARGIN rfl rfl (by rfl)
      (by norm_num [MakeSvgOptions.default]) rfl).1

/-- C9: when every recorded move-number history of the selected board state
is non-empty, the `expect` branch of `build_move_numbers_group` is
unreachable and the guarded subtraction cannot underflow, so the builders
are total and `make_svg` never panics. -/
theorem C9_no_panic (s : SgfInput) (o : MakeSvgOptions)
    (h : ∀ (c : Collection) (g : Goban), s = .ok c →
      c o.node_description = some g → ∀ e ∈ g.move_numbers, e.2 ≠ []) :
    (makeSvg s o).isSome ∧
    (∀ g : Goban, (∀ e ∈ g.move_numbers, e.2 ≠ []) →
      (buildMoveNumbersGroup? g o).isSome ∧ (buildBoard? g o).isSome) := by
  constructor
  · cases s with
    | error e => simp [makeSvg, parseGo]
    | ok c =>
        cases hcd : c o.node_description with
        | none => simp [makeSvg, parseGo, Goban.fromNodeInCollection, hcd]
        | some g =>
            have hmn := h c g rfl hcd
            cases hgr : o.goban_range.getRanges g with
            | error er =>
                simp [makeSvg, parseGo, Goban.fromNodeInCollection, hcd, hgr]
            | ok pr =>
                obtain ⟨xr, yr⟩ := pr
                by_cases hcond : o.draw_board_labels = true ∧
                    (25 < xr.stop - xr.start ∨ 99 < yr.stop - yr.start)
                · rw [makeSvg_unlabellable hcd hgr hcond]
                  rfl
                · rw [makeSvg_ok_eq hcd hgr (buildBoard?_eq g o hmn) hcond]
                  rfl
  · intro g hmn
    refine ⟨?_, ?_⟩
    · rw [buildMoveNumbersGroup?_eq g o hmn]
      rfl
    · rw [buildBoard?_eq g o hmn]
      rfl

/-- Witness for C9: a board whose only recorded history is the non-empty
list `[2, 1]` renders with the move-number layer enabled and no panic. -/
theorem C9_no_panic_witness :
    (makeSvg (.ok (collectionFor gReplayA)) mnOptions).isSome :=
  (C9_no_panic (.ok (collectionFor gReplayA)) mnOptions
    (by
      intro c g hc hg e he
      injection hc with hc2
      subst hc2
      simp only [collectionFor, Option.some.injEq] at hg
      subst hg
      simp [gReplayA, emptyGoban] at he
      subst he
      simp)).1

/-- C1 (counterexample): the source displays a point's `last()` recorded
number, not its maximum, so permuting the history `[2, 1]` of a single
point into `[1, 2]` changes the rendered output, and the number rendered
for `[2, 1]` is 1 even though the maximum is 2. -/
theorem C1_counterexample :
    List.Perm ([2, 1] : List ℕ) [1, 2] ∧
    itermax [2, 1] = some 2 ∧
    mnNumbers (buildMoveNumbersGroup? gReplayA mnOptions) = ["1"] ∧
    mnNumbers (buildMoveNumbersGroup? gReplayB mnOptions) = ["2"] ∧
    buildMoveNumbersGroup? gReplayA mnOptions ≠
      buildMoveNumbersGroup? gReplayB mnOptions := by
  refine ⟨by decide, by decide, rfl, rfl, ?_⟩
  intro h
  have h2 := congrArg mnNumbers h
  rw [show mnNumbers (buildMoveNumbersGroup? gReplayA mnOptions) = ["1"] from rfl,
    show mnNumbers (buildMoveNumbersGroup? gReplayB mnOptions) = ["2"] from rfl]
    at h2
  exact absurd h2 (by decide)

/-- C1 (amended): the rendered move number for a point is the *last*
recorded number of its history; whenever every history is ascending (as
histories appended in play order are), the last number equals the maximum
and the source layer coincides with the spec's maximum-selecting layer, so
the rendered output then depends only on each history's maximum. -/
theorem C1_amended (g : Goban) (o : MakeSvgOptions)
    (h : ∀ e ∈ g.move_numbers, e.2 ≠ [] ∧ e.2.Sorted (· ≤ ·)) :
    buildMoveNumbersGroup? g o = some (specMoveNumbersGroupByMax g o) := by
  rw [buildMoveNumbersGroup?_eq g o (fun e he => (h e he).1)]
  unfold specMoveNumbersGroupByMax
  congr 2
  apply List.filterMap_congr
  intro e he
  have hm : e ∈ g.move_numbers := (List.mem_insertionSort MNLe).mp he
  unfold mnEmitEntry
  rw [getLast?_eq_itermax (h e hm).1 (h e hm).2]

/-- Witness for C1 (amended) with the ascending history `[1, 2]`. -/
theorem C1_amended_witness :
    buildMoveNumbersGroup? gReplayB mnOptions =
      some (specMoveNumbersGroupByMax gReplayB mnOptions) :=
  C1_amended gReplayB mnOptions (by decide)

/-- C4: a point whose selected number `n` is at least `first_move_number`
is displayed as `(n - first_move_number) % 99 + 1`, and a point whose
selected number is below the threshold contributes no move-number element
at all. -/
theorem C4_wraparound (g : Goban) (o : MakeSvgOptions) (p : Point)
    (l : List ℕ) (n : ℕ)
    (hne : ∀ e ∈ g.move_numbers, e.2 ≠ [])
    (hnodup : (g.move_numbers.map Prod.fst).Nodup)
    (hmem : (p, l) ∈ g.move_numbers) (hlast : l.getLast? = some n) :
    ∃ ch, buildMoveNumbersGroup? g o =
        some (Elem.node "g"
          [("id", Val.s "move-numbers"), ("text-anchor", Val.s "middle")] ch) ∧
      (o.first_move_number ≤ n →
        drawMoveNumber p.1 p.2 ((n - o.first_move_number) % 99 + 1)
          (g.stoneAt p) o.style ∈ ch) ∧
      (n < o.first_move_number →
        ∀ el ∈ ch, ∀ (m : ℕ) (st : Option StoneColor),
          el ≠ drawMoveNumber p.1 p.2 m st o.style) := by
  refine ⟨_, buildMoveNumbersGroup?_eq g o hne, ?_, ?_⟩
  · intro hle
    apply List.mem_filterMap.mpr
    refine ⟨(p, l), (List.mem_insertionSort MNLe).mpr hmem, ?_⟩
    simp [mnEmitEntry, hlast, hle]
  · intro hlt el hel m st heq
    obtain ⟨e, hesort, hee⟩ := List.mem_filterMap.mp hel
    have hemem : e ∈ g.move_numbers := (List.mem_insertionSort MNLe).mp hesort
    unfold mnEmitEntry at hee
    split at hee
    · exact Option.noConfusion hee
    · rename_i q hL
      split at hee
      · rename_i hq
        injection hee with hee2
        rw [← hee2] at heq
        obtain ⟨hx, hy⟩ := drawMoveNumber_point_inj heq
        have hep : e.1 = p := Prod.ext hx hy
        have heqe : e = (p, l) :=
          List.inj_on_of_nodup_map hnodup hemem hmem hep
        rw [heqe] at hL
        rw [hlast] at hL
        injection hL with hL2
        omega
      · exact Option.noConfusion hee

/-- Witness for C4: move number 100 with threshold 1 is displayed as
`(100 - 1) % 99 + 1 = 1`. -/
theorem C4_wraparound_witness :
    ∃ ch, buildMoveNumbersGroup? gWrap mnOptions =
        some (Elem.node "g"
          [("id", Val.s "move-numbers"), ("text-anchor", Val.s "middle")] ch) ∧
      drawMoveNumber 2 3 ((100 - 1) % 99 + 1) (gWrap.stoneAt (2, 3))
        mnOptions.style ∈ ch := by
  obtain ⟨ch, h1, h2, h3⟩ :=
    C4_wraparound gWrap mnOptions (2, 3) [100] 100 (by decide) (by decide)
      (by decide) rfl
  exact ⟨ch, h1, h2 (by decide)⟩

/-- C5 (counterexample): the move-number layer sorts only by the maximum
recorded number and the sort is stable, so two board states that differ
only in the iteration order of two points sharing the same maximum render
differently — byte-identical output is not guaranteed. -/
theorem C5_counterexample :
    gTieA.move_numbers.Perm gTieB.move_numbers ∧
    gTieA.size = gTieB.size ∧ gTieA.stones = gTieB.stones ∧
    gTieA.marks = gTieB.marks ∧ gTieA.labels = gTieB.labels ∧
    itermax ((gTieA.move_numbers.get ⟨0, by decide⟩).2) =
      itermax ((gTieA.move_numbers.get ⟨1, by decide⟩).2) ∧
    docMoveNumberTexts (makeSvg (okInput gTieA) mnOptions) = ["5", "4"] ∧
    docMoveNumberTexts (makeSvg (okInput gTieB) mnOptions) = ["4", "5"] ∧
    makeSvg (okInput gTieA) mnOptions ≠ makeSvg (okInput gTieB) mnOptions := by
  refine ⟨by decide, by decide, by decide, by decide, by decide, by decide,
    rfl, rfl, ?_⟩
  intro h
  have h2 := congrArg docMoveNumberTexts h
  rw [show docMoveNumberTexts (makeSvg (okInput gTieA) mnOptions) = ["5", "4"]
      from rfl,
    show docMoveNumberTexts (makeSvg (okInput gTieB) mnOptions) = ["4", "5"]
      from rfl] at h2
  exact absurd h2 (by decide)

/-- Folding a commutative associative operation is invariant under
permutation of the list. -/
theorem foldl_perm_invariant {op : ℕ → ℕ → ℕ}
    (hcomm : ∀ a b, op a b = op b a)
    (hassoc : ∀ a b c, op (op a b) c = op a (op b c)) :
    ∀ {l1 l2 : List ℕ}, l1.Perm l2 → ∀ b, l1.foldl op b = l2.foldl op b := by
  intro l1 l2 h
  induction h with
  | nil => intro b; rfl
  | cons x _ ih => intro b; simp only [List.foldl_cons]; exact ih _
  | swap x y l =>
      intro b
      simp only [List.foldl_cons]
      rw [hassoc, hassoc, hcomm y x]
  | trans _ _ ih1 ih2 => intro b; rw [ih1 b, ih2 b]

/-- Folding an idempotent commutative associative operation absorbs a
repeated occurrence of an element already in the list. -/
theorem foldl_op_absorb {op : ℕ → ℕ → ℕ}
    (hcomm : ∀ a b, op a b = op b a)
    (hassoc : ∀ a b c, op (op a b) c = op a (op b c))
    (hidem : ∀ a, op a a = a) {a : ℕ} :
    ∀ {X : List ℕ}, a ∈ X → ∀ b, X.foldl op (op b a) = X.foldl op b := by
  intro X
  induction X with
  | nil => intro ha; cases ha
  | cons x xs ih =>
      intro ha b
      rcases List.mem_cons.mp ha with h | h
      · subst h
        rw [List.foldl_cons, List.foldl_cons, hassoc, hidem]
      · rw [List.foldl_cons, List.foldl_cons]
        have hsw : op (op b a) x = op (op b x) a := by
          rw [hassoc, hassoc, hcomm a x]
        rw [hsw, ih h]

/-- The source's bounding-box fold (seeded with the head element, folded
over the whole list) is independent of the iteration order. -/
theorem foldl_extremum_head {op : ℕ → ℕ → ℕ}
    (hcomm : ∀ a b, op a b = op b a)
    (hassoc : ∀ a b c, op (op a b) c = op a (op b c))
    (hidem : ∀ a, op a a = a)
    {l1 l2 : List ℕ} {a b : ℕ} (h : (a :: l1).Perm (b :: l2)) :
    (a :: l1).foldl op a = (b :: l2).foldl op b := by
  rw [foldl_perm_invariant hcomm hassoc h a]
  simp only [List.foldl_cons, hidem]
  have hmem : a ∈ b :: l2 := h.mem_iff.mp (List.mem_cons_self a l1)
  rcases List.mem_cons.mp hmem with hab | hal
  · rw [hab]
    rw [hidem]
  · rw [hcomm a b, foldl_op_absorb hcomm hassoc hidem hal b]

/-- The occupied-point list of two permuted board states is a
permutation. -/
theorem occupied_perm {g1 g2 : Goban}
    (hst : g1.stones = g2.stones)
    (hmk : g1.marks.Perm g2.marks) (htr : g1.triangles.Perm g2.triangles)
    (hci : g1.circles.Perm g2.circles) (hsq : g1.squares.Perm g2.squares)
    (hse : g1.selected.Perm g2.selected) (hdi : g1.dimmed.Perm g2.dimmed)
    (hla : g1.labels.Perm g2.labels) (hli : g1.lines.Perm g2.lines)
    (har : g1.arrows.Perm g2.arrows)
    (hmv : g1.move_numbers.Perm g2.move_numbers) :
    g1.occupied.Perm g2.occupied := by
  unfold Goban.occupied
  rw [List.perm_iff_count]
  intro a
  simp only [List.count_append]
  rw [hst, hmk.count_eq, htr.count_eq, hci.count_eq, hsq.count_eq,
    hse.count_eq, hdi.count_eq, (hmv.map (·.1)).count_eq,
    (hla.map (·.1)).count_eq, (hli.map (·.1)).count_eq,
    (hli.map (·.2)).count_eq, (har.map (·.1)).count_eq,
    (har.map (·.2)).count_eq]

/-- Range resolution is independent of the iteration order of the board's
collections: full-board and explicit ranges read only the size, and
auto-crop's bounding box is an order-insensitive fold. -/
theorem getRanges_congr {g1 g2 : Goban} (r : GobanRange)
    (hsize : g1.size = g2.size) (hocc : g1.occupied.Perm g2.occupied) :
    r.getRanges g1 = r.getRanges g2 := by
  cases r with
  | FullBoard => simp only [GobanRange.getRanges, hsize]
  | Ranged xr yr => simp only [GobanRange.getRanges, hsize]
  | ShrinkWrap =>
      cases ho1 : g1.occupied with
      | nil =>
          have ho2 : g2.occupied = [] := by
            rw [ho1] at hocc
            exact hocc.nil_eq.symm
          simp only [GobanRange.getRanges, ho1, ho2, hsize]
      | cons p ps =>
          cases ho2 : g2.occupied with
          | nil =>
              rw [ho1, ho2] at hocc
              exact absurd hocc.symm.nil_eq (by simp)
          | cons q qs =>
              rw [ho1, ho2] at hocc
              have hx0 := foldl_extremum_head min_comm min_assoc
                min_self (hocc.map (·.1))
              have hx1 := foldl_extremum_head max_comm max_assoc
                max_self (hocc.map (·.1))
              have hy0 := foldl_extremum_head min_comm min_assoc
                min_self (hocc.map (·.2))
              have hy1 := foldl_extremum_head max_comm max_assoc
                max_self (hocc.map (·.2))
              simp only [List.map_cons] at hx0 hx1 hy0 hy1
              simp only [GobanRange.getRanges, ho1, ho2, List.map_cons, hx0,
                hx1, hy0, hy1, hsize]

/-- Document composition reads only the board size from the goban (for the
row-label range); everything else comes from the already-built board
group, the options and the resolved ranges. -/
theorem composeDoc_congr {g1 g2 : Goban} (o : MakeSvgOptions)
    (hsize : g1.size = g2.size) (xr yr : Rng) (b : Elem) :
    composeDoc g1 o xr yr b = composeDoc g2 o xr yr b := by
  unfold composeDoc
  simp only [hsize]

/-- The board group is identical for two board states whose collections
are permutations of each other (markup layers sort by a total order; the
move-number layer needs its maxima to identify entries). -/
theorem buildBoard?_perm_congr (g1 g2 : Goban) (o : MakeSvgOptions)
    (hsize : g1.size = g2.size) (hst : g1.stones = g2.stones)
    (hho : g1.hoshiPoints = g2.hoshiPoints)
    (hmk : g1.marks.Perm g2.marks) (htr : g1.triangles.Perm g2.triangles)
    (hci : g1.circles.Perm g2.circles) (hsq : g1.squares.Perm g2.squares)
    (hse : g1.selected.Perm g2.selected) (hdi : g1.dimmed.Perm g2.dimmed)
    (hla : g1.labels.Perm g2.labels) (hli : g1.lines.Perm g2.lines)
    (har : g1.arrows.Perm g2.arrows)
    (hmv : g1.move_numbers.Perm g2.move_numbers)
    (hinj : ∀ a ∈ g1.move_numbers, ∀ b ∈ g1.move_numbers,
      itermax a.2 = itermax b.2 → a = b) :
    buildBoard? g1 o = buildBoard? g2 o := by
  have hsa : Goban.stoneAt g1 = Goban.stoneAt g2 := stoneAt_congr hst
  have hmk2 := insertionSort_perm_congr PointLe hmk
    (fun a _ b _ h1 h2 => pointLe_antisymm h1 h2)
  have htr2 := insertionSort_perm_congr PointLe htr
    (fun a _ b _ h1 h2 => pointLe_antisymm h1 h2)
  have hci2 := insertionSort_perm_congr PointLe hci
    (fun a _ b _ h1 h2 => pointLe_antisymm h1 h2)
  have hsq2 := insertionSort_perm_congr PointLe hsq
    (fun a _ b _ h1 h2 => pointLe_antisymm h1 h2)
  have hse2 := insertionSort_perm_congr PointLe hse
    (fun a _ b _ h1 h2 => pointLe_antisymm h1 h2)
  have hdi2 := insertionSort_perm_congr PointLe hdi
    (fun a _ b _ h1 h2 => pointLe_antisymm h1 h2)
  have hla2 := insertionSort_perm_congr LabelLe hla
    (fun a _ b _ h1 h2 => labelLe_antisymm h1 h2)
  have hli2 := insertionSort_perm_congr PairLe hli
    (fun a _ b _ h1 h2 => pairLe_antisymm h1 h2)
  have har2 := insertionSort_perm_congr PairLe har
    (fun a _ b _ h1 h2 => pairLe_antisymm h1 h2)
  have hmv2 := insertionSort_perm_congr MNLe hmv
    (fun a ha b hb h1 h2 => hinj a ha b hb (optle_antisymm h1 h2))
  have e1 : buildBoardLinesGroup g1 o = buildBoardLinesGroup g2 o := by
    simp only [buildBoardLinesGroup, hsize, hho]
  have e2 : buildStonesGroup g1 o = buildStonesGroup g2 o := by
    simp only [buildStonesGroup, hst]
  have hemit : mnEmitEntry g1 o = mnEmitEntry g2 o := by
    funext e
    unfold mnEmitEntry
    rw [hsa]
  have e3 : buildMoveNumbersGroup? g1 o = buildMoveNumbersGroup? g2 o := by
    simp only [buildMoveNumbersGroup?, hmv2, hemit]
  have e4 : buildMarksGroup g1 o = buildMarksGroup g2 o := by
    simp only [buildMarksGroup, hmk2, hsa]
  have e5 : buildTrianglesGroup g1 o = buildTrianglesGroup g2 o := by
    simp only [buildTrianglesGroup, htr2, hsa]
  have e6 : buildCirclesGroup g1 o = buildCirclesGroup g2 o := by
    simp only [buildCirclesGroup, hci2, hsa]
  have e7 : buildSquaresGroup g1 o = buildSquaresGroup g2 o := by
    simp only [buildSquaresGroup, hsq2, hsa]
  have e8 : buildSelectedGroup g1 o = buildSelectedGroup g2 o := by
    simp only [buildSelectedGroup, hse2, hsa]
  have e9 : buildDimmedGroup g1 o = buildDimmedGroup g2 o := by
    simp only [buildDimmedGroup, hdi2]
  have e10 : buildLabelGroup g1 o = buildLabelGroup g2 o := by
    simp only [buildLabelGroup, hla2, hsa]
  have e11 : buildLineGroup g1 o = buildLineGroup g2 o := by
    simp only [buildLineGroup, hli2]
  have e12 : buildArrowGroup g1 o = buildArrowGroup g2 o := by
    simp only [buildArrowGroup, har2]
  simp only [buildBoard?, e1, e2, e3, e4, e5, e6, e7, e8, e9, e10, e11, e12]

/-- C5 (amended): two renders of the same board state and options produce
identical output documents when the markup collections (marks, triangles,
circles, squares, selected, dimmed, labels, lines, arrows) are iterated in
different orders — each such layer sorts by a total order, and range
resolution's bounding box is an order-insensitive fold — and also when the
move-number collection is iterated in a different order, provided distinct
points carry distinct maximum recorded numbers; with tied maxima the
stable sort preserves iteration order and determinism can fail, as the
counterexample shows. -/
theorem C5_determinism_amended (c1 c2 : Collection) (g1 g2 : Goban)
    (o : MakeSvgOptions)
    (hc1 : c1 o.node_description = some g1)
    (hc2 : c2 o.node_description = some g2)
    (hsize : g1.size = g2.size) (hst : g1.stones = g2.stones)
    (hho : g1.hoshiPoints = g2.hoshiPoints)
    (hmk : g1.marks.Perm g2.marks) (htr : g1.triangles.Perm g2.triangles)
    (hci : g1.circles.Perm g2.circles) (hsq : g1.squares.Perm g2.squares)
    (hse : g1.selected.Perm g2.selected) (hdi : g1.dimmed.Perm g2.dimmed)
    (hla : g1.labels.Perm g2.labels) (hli : g1.lines.Perm g2.lines)
    (har : g1.arrows.Perm g2.arrows)
    (hmv : g1.move_numbers.Perm g2.move_numbers)
    (hinj : ∀ a ∈ g1.move_numbers, ∀ b ∈ g1.move_numbers,
      itermax a.2 = itermax b.2 → a = b) :
    makeSvg (.ok c1) o = makeSvg (.ok c2) o ∧
    buildBoard? g1 o = buildBoard? g2 o := by
  have hboard : buildBoard? g1 o = buildBoard? g2 o :=
    buildBoard?_perm_congr g1 g2 o hsize hst hho hmk htr hci hsq hse hdi hla
      hli har hmv hinj
  have hrng : o.goban_range.getRanges g1 = o.goban_range.getRanges g2 :=
    getRanges_congr o.goban_range hsize
      (occupied_perm hst hmk htr hci hsq hse hdi hla hli har hmv)
  refine ⟨?_, hboard⟩
  simp only [makeSvg, parseGo, Goban.fromNodeInCollection, hc1, hc2]
  rw [hrng]
  cases hgr : o.goban_range.getRanges g2 with
  | error e => rfl
  | ok pr =>
      obtain ⟨xr, yr⟩ := pr
      by_cases hcond : o.draw_board_labels = true ∧
          (25 < xr.stop - xr.start ∨ 99 < yr.stop - yr.start)
      · simp only [if_pos hcond]
      · simp only [if_neg hcond, hboard]
        cases hbb : buildBoard? g2 o with
        | none => rfl
        | some b => simp only [composeDoc_congr o hsize]

/-- Witness for C5 (amended): permuting a two-point mark set leaves the
whole rendered document unchanged. -/
theorem C5_determinism_amended_witness :
    makeSvg (.ok (collectionFor gMarksA)) mnOptions =
      makeSvg (.ok (collectionFor gMarksB)) mnOptions :=
  (C5_determinism_amended (collectionFor gMarksA) (collectionFor gMarksB)
    gMarksA gMarksB mnOptions rfl rfl rfl rfl rfl
    (by decide) (List.Perm.refl _) (List.Perm.refl _) (List.Perm.refl _)
    (List.Perm.refl _) (List.Perm.refl _) (List.Perm.refl _) (List.Perm.refl _)
    (List.Perm.refl _) (List.Perm.refl _) (by simp [gMarksA, emptyGoban])).1

theorem filterMap_some_comp {α β : Type} (f : α → β) (l : List α) :
    l.filterMap (fun a => some (f a)) = l.map f := by
  induction l with
  | nil => rfl
  | cons a t ih => simp [List.filterMap_cons, ih]

/-- C3: the board group stacks the enabled layers in exactly the fixed
back-to-front order — grid lines & star points, stones, move numbers,
marks, triangles, circles, squares, selection, dimming, labels, connector
lines, arrows — so in particular a mark draws above a stone and a
selection above a mark, for every subset of enabled layers. -/
theorem C3_layer_order (g : Goban) (o : MakeSvgOptions)
    (h : ∀ e ∈ g.move_numbers, e.2 ≠ []) :
    ∃ b, buildBoard? g o = some b ∧
      b.childrenOf.map Elem.elemId = specLayerOrder o ∧
      (o.draw_marks = true → o.draw_selected = true →
        List.Sublist ["stones", "markup-marks", "markup-selected"]
          (b.childrenOf.map Elem.elemId)) := by
  have hids :
      (Elem.childrenOf (Elem.node "g" [("id", Val.s "goban")]
        ([buildBoardLinesGroup g o, buildStonesGroup g o]
          ++ (if o.draw_move_numbers then
                [Elem.node "g"
                  [("id", Val.s "move-numbers"), ("text-anchor", Val.s "middle")]
                  ((List.insertionSort MNLe g.move_numbers).filterMap
                    (mnEmitEntry g o))]
              else [])
          ++ (if o.draw_marks then [buildMarksGroup g o] else [])
          ++ (if o.draw_triangles then [buildTrianglesGroup g o] else [])
          ++ (if o.draw_circles then [buildCirclesGroup g o] else [])
          ++ (if o.draw_squares then [buildSquaresGroup g o] else [])
          ++ (if o.draw_selected then [buildSelectedGroup g o] else [])
          ++ (if o.draw_dimmed then [buildDimmedGroup g o] else [])
          ++ (if o.draw_labels then [buildLabelGroup g o] else [])
          ++ (if o.draw_lines then [buildLineGroup g o] else [])
          ++ (if o.draw_arrows then [buildArrowGroup g o] else [])))).map
            Elem.elemId = specLayerOrder o := by
    simp only [Elem.childrenOf, specLayerOrder, List.map_append,
      apply_ite (List.map Elem.elemId), List.map_cons, List.map_nil,
      buildBoardLinesGroup, buildStonesGroup, buildMarksGroup,
      buildTrianglesGroup, buildCirclesGroup, buildSquaresGroup,
      buildSelectedGroup, buildDimmedGroup, buildLabelGroup, buildLineGroup,
      buildArrowGroup, Elem.elemId]
  refine ⟨_, buildBoard?_eq g o h, hids, ?_⟩
  intro hm hs
  rw [hids]
  simp only [specLayerOrder, hm, hs, if_true, List.cons_append,
    List.nil_append, List.append_assoc]
  apply List.Sublist.cons
  apply List.Sublist.cons₂
  apply List.sublist_append_of_sublist_right
  apply List.Sublist.cons₂
  apply List.sublist_append_of_sublist_right
  apply List.sublist_append_of_sublist_right
  apply List.sublist_append_of_sublist_right
  apply List.Sublist.cons₂
  exact List.nil_sublist _

/-- Witness for C3 at a concrete board: stone, mark and selection share a
point and the layer order holds with the default layer subset. -/
theorem C3_layer_order_witness :
    ∃ b, buildBoard? gExample MakeSvgOptions.default = some b ∧
      b.childrenOf.map Elem.elemId = specLayerOrder MakeSvgOptions.default ∧
      (MakeSvgOptions.default.draw_marks = true →
        MakeSvgOptions.default.draw_selected = true →
        List.Sublist ["stones", "markup-marks", "markup-selected"]
          (b.childrenOf.map Elem.elemId)) :=
  C3_layer_order gExample MakeSvgOptions.default
    (by intro e he; simp [gExample, emptyGoban] at he)

/-- C6: board-edge labels reflect true board coordinates — the column
label for absolute column `x` is the `(x+1)`-th letter of the `I`-skipped
alphabet, and the row labels for a board of height `H` are the numbers
`H - y_range.stop + 1` through `H - y_range.start`, counted from the
bottom edge of the full board, exactly as the `make_svg` call site passes
them. -/
theorem C6_board_labels (xr yr : Rng) (s : GobanStyle) (H : ℕ)
    (hy : yr.start ≤ yr.stop) (hyH : yr.stop ≤ H) :
    columnLabelTexts (drawBoardLabels xr
        ⟨H - (yr.stop - yr.start) - yr.start + 1, H - yr.start + 1⟩ s) =
      (List.range' xr.start (xr.stop - xr.start)).map labelText ∧
    rowLabelTexts (drawBoardLabels xr
        ⟨H - (yr.stop - yr.start) - yr.start + 1, H - yr.start + 1⟩ s) =
      (List.range' (H - yr.stop + 1) (yr.stop - yr.start)).map
        (fun y => toString y) ∧
    (∀ x (hx : x < skipIAlphabet.length),
      labelText x = String.singleton (skipIAlphabet.get ⟨x, hx⟩)) := by
  have hstart : H - (yr.stop - yr.start) - yr.start + 1 = H - yr.stop + 1 := by
    omega
  refine ⟨?_, ?_, ?_⟩
  · simp only [columnLabelTexts, drawBoardLabels, Elem.childrenOf,
      List.filterMap_map, Function.comp, textOf]
    exact filterMap_some_comp _ _
  · have hcount2 : H - yr.start + 1 - (H - yr.stop + 1) = yr.stop - yr.start := by
      omega
    simp only [rowLabelTexts, drawBoardLabels, Elem.childrenOf,
      List.filterMap_map, Function.comp_def, textOf, hstart, hcount2]
    exact filterMap_some_comp _ _
  · intro x hx
    have hx25 : x < 25 := by simpa [skipIAlphabet] using hx
    interval_cases x <;> rfl

/-- Witness for C6 on a full 19×19 board. -/
theorem C6_board_labels_witness :
    columnLabelTexts (drawBoardLabels ⟨0, 19⟩
        ⟨19 - (19 - 0) - 0 + 1, 19 - 0 + 1⟩ GobanStyle.Simple) =
      (List.range' 0 19).map labelText :=
  (C6_board_labels ⟨0, 19⟩ ⟨0, 19⟩ GobanStyle.Simple 19 (by decide)
    (by decide)).1

/-- C10: the grid-and-stars layer covers the whole board independently of
the resolved range — exactly one full-height vertical line per column,
one full-width horizontal line per row, and one circle per star point —
and the composed document hides out-of-range parts only through the clip
path set on the board group, not by omitting elements. -/
theorem C10_full_board_lines (g : Goban) (o o2 : MakeSvgOptions)
    (xr yr : Rng) (b : Elem) :
    buildBoardLinesGroup g o = buildBoardLinesGroup g o2 ∧
    (buildBoardLinesGroup g o).childrenOf.length = g.size.1 + g.size.2 + 1 ∧
    (∀ x, x < g.size.1 → (buildBoardLinesGroup g o).childrenOf[x]? =
      some (Elem.node "line"
        [("x1", Val.q (x : ℚ)), ("y1", Val.q 0), ("x2", Val.q (x : ℚ)),
          ("y2", Val.q ((g.size.2 - 1 : ℕ) : ℚ))] [])) ∧
    (∀ y, y < g.size.2 →
      (buildBoardLinesGroup g o).childrenOf[g.size.1 + y]? =
      some (Elem.node "line"
        [("x1", Val.q 0), ("y1", Val.q (y : ℚ)),
          ("x2", Val.q ((g.size.1 - 1 : ℕ) : ℚ)), ("y2", Val.q (y : ℚ))] [])) ∧
    ((buildBoardLinesGroup g o).childrenOf[g.size.1 + g.size.2]? =
      some (Elem.node "g"
        [("id", Val.s "hoshi"), ("stroke", Val.s "none"),
          ("fill", Val.s LINE_COLOR)]
        (g.hoshiPoints.map (fun p =>
          Elem.node "circle"
            [("cx", Val.q (p.1 : ℚ)), ("cy", Val.q (p.2 : ℚ)),
              ("r", Val.q HOSHI_RADIUS)] [])))) ∧
    ((composeDoc g o xr yr b).diagram.childrenOf.head?.map Elem.childrenOf =
      some [b.set ("clip-path", Val.s "url(#board-clip)")]) := by
  refine ⟨rfl, ?_, ?_, ?_, ?_, ?_⟩
  · simp only [buildBoardLinesGroup, Elem.childrenOf, List.length_append,
      List.length_map, List.length_range, List.length_singleton]
  · intro x hx
    simp only [buildBoardLinesGroup, Elem.childrenOf]
    rw [List.getElem?_append_left (by
      simp only [List.length_append, List.length_map, List.length_range]
      omega)]
    rw [List.getElem?_append_left (by
      simp only [List.length_map, List.length_range]
      omega)]
    simp [List.getElem?_map, List.getElem?_range hx]
  · intro y hy
    simp only [buildBoardLinesGroup, Elem.childrenOf]
    rw [List.getElem?_append_left (by
      simp only [List.length_append, List.length_map, List.length_range]
      omega)]
    rw [List.getElem?_append_right (by
      simp only [List.length_map, List.length_range]
      omega)]
    simp [List.getElem?_map, List.getElem?_range hy]
  · simp only [buildBoardLinesGroup, Elem.childrenOf]
    rw [List.getElem?_append_right (by
      simp only [List.length_append, List.length_map, List.length_range]
      omega)]
    simp
  · cases hl : o.draw_board_labels <;>
      simp [composeDoc, hl, Elem.set, Elem.addChild, Elem.childrenOf]

/-- Witness for C10: on the 19×19 example board the first child of the
lines layer is the full-height vertical line of column 0. -/
theorem C10_full_board_lines_witness :
    (buildBoardLinesGroup gExample MakeSvgOptions.default).childrenOf[0]? =
      some (Elem.node "line"
        [("x1", Val.q ((0 : ℕ) : ℚ)), ("y1", Val.q 0),
          ("x2", Val.q ((0 : ℕ) : ℚ)),
          ("y2", Val.q ((gExample.size.2 - 1 : ℕ) : ℚ))] []) :=
  (C10_full_board_lines gExample MakeSvgOptions.default MakeSvgOptions.default
    ⟨0, 19⟩ ⟨0, 19⟩ (Elem.text "")).2.2.1 0 (by decide)

end SgfRender
